import Mathlib

/-!
Shallow embedding of the Cantus front end search logic:

* the chant search provider (its `getSearchField`, `setSearchQueryOnBuilder`
  and `search` methods), embedded as pure functions from the controller's
  input state to the sequence of effects it performs (query-builder
  `setField` calls, collection reset/invalidate/fetch operations);
* the notation search view's `resultFetchCallback`, embedded as a function
  from the fetched result set to the fresh pagination cursor and the viewer
  effects (paint highlight boxes, zoom to a result);
* the Marionette template loader `loadTemplate`;
* the build-time template bundler's `writeBundle`.

Machinery that the repository uses but whose source is not part of this
code base (the result collection's reset/invalidation semantics and the
pagination view's page accessor) is modelled from the specification and
marked as such in doc comments.
-/

namespace Cantus

/-- Value of a search query as it flows through `search`: in the source it is
either a JavaScript string or an array of strings. -/
inductive QueryValue
  | str : String → QueryValue
  | arr : List String → QueryValue
deriving DecidableEq, Repr

/-- One `queryBuilder.setField(field, value, combinator?)` call recorded as
data: the resolved field name, the value, and the optional combinator
argument (`some "OR"` when the source passes `'OR'`, `none` when the source
omits the third argument). -/
structure FieldCall where
  field : String
  value : QueryValue
  combinator : Option String
deriving DecidableEq, Repr

/-- The `stringFields` array of the search provider: fields indexed in Solr
as strings, for which the text_general variant must be queried. -/
def stringFields : List String :=
  ["feast", "office", "genre", "position", "mode", "differentia", "finalis", "folio"]

/-- Embedding of `getSearchField`: string fields get the `_t_hidden` suffix,
all other fields pass through unchanged. -/
def getSearchField (field : String) : String :=
  if field ∈ stringFields then field ++ "_t_hidden" else field

/-- The `modeStringValues` accumulator of `setSearchQueryOnBuilder`: the
values of length exactly one. -/
def modeStringValues (vs : List String) : List String :=
  vs.filter (fun v => v.length = 1)

/-- The `modeTextValues` accumulator of `setSearchQueryOnBuilder`: the values
whose length is not one. -/
def modeTextValues (vs : List String) : List String :=
  vs.filter (fun v => v.length ≠ 1)

/-- Embedding of `setSearchQueryOnBuilder`, returning the list of `setField`
calls made on the query builder, in order. -/
def setSearchQueryOnBuilder (field : String) (query : QueryValue) : List FieldCall :=
  if field ≠ "mode" then
    [⟨getSearchField field, query, some "OR"⟩]
  else
    match query with
    | QueryValue.str s =>
        [⟨if s.length = 1 then "mode" else "mode_t_hidden", QueryValue.str s, none⟩]
    | QueryValue.arr vs =>
        if (modeStringValues vs).length = 0 then
          [⟨"mode_t_hidden", QueryValue.arr (modeTextValues vs), some "OR"⟩]
        else if (modeTextValues vs).length = 0 then
          [⟨"mode", QueryValue.arr (modeStringValues vs), some "OR"⟩]
        else
          [⟨"_hardcodedSpecialQuery",
            QueryValue.str ("(mode:(" ++ String.intercalate " OR " (modeStringValues vs) ++
              ") OR mode_t_hidden:(" ++ String.intercalate " OR " (modeTextValues vs) ++ "))"),
            none⟩]

/-- JavaScript truthiness of the query slot read by `search`: `undefined`
(unset) and the empty string are falsy; arrays are always truthy. -/
def queryFalsy : QueryValue → Bool
  | QueryValue.str s => s = ""
  | QueryValue.arr _ => false

/-- Truthiness of the optional query, as tested by `if (!query)`. -/
def queryTruthy : Option QueryValue → Bool
  | none => false
  | some q => !queryFalsy q

/-- Helper for `splitComma`: walks the characters, accumulating the current
segment in reverse. -/
def splitCommaAux : List Char → List Char → List String
  | [], acc => [⟨acc.reverse⟩]
  | c :: rest, acc =>
      if c = ',' then String.mk acc.reverse :: splitCommaAux rest []
      else splitCommaAux rest (c :: acc)

/-- Embedding of the JavaScript `query.split(',')`: splits a string at every
comma; the empty string yields a single empty segment. -/
def splitComma (s : String) : List String :=
  splitCommaAux s.data []

/-- Embedding of the comma-splitting step of `search`: when the field is not
`all` and the query is a string, it is split on commas. -/
def commaSplit (field : String) (q : QueryValue) : QueryValue :=
  if field ≠ "all" then
    match q with
    | QueryValue.str s => QueryValue.arr (splitComma s)
    | q => q
  else q

/-- The `setField` call made for one restriction entry in `search`: the
restriction's field name goes through `getSearchField`, no combinator. -/
def restrictionCall (r : String × String) : FieldCall :=
  ⟨getSearchField r.1, QueryValue.str r.2, none⟩

/-- An observable operation performed by `search` on the result collection:
invalidating the in-flight fetch, resetting the collection, or issuing a
fetch with the accumulated query-builder state. -/
inductive SearchEffect
  | invalidateFetch : SearchEffect
  | reset : SearchEffect
  | fetch : List FieldCall → SearchEffect
deriving DecidableEq, Repr

/-- Embedding of `search`, returning the ordered list of effects it performs
given the current query, field and restrictions. -/
def search (query : Option QueryValue) (field : String)
    (restrictions : List (String × String)) : List SearchEffect :=
  match query with
  | none => [SearchEffect.invalidateFetch, SearchEffect.reset]
  | some q =>
      if queryFalsy q then [SearchEffect.invalidateFetch, SearchEffect.reset]
      else
        [SearchEffect.fetch
          (setSearchQueryOnBuilder field (commaSplit field q) ++
            restrictions.map restrictionCall)]

/-- A search result record as handed to the viewer; the payload is abstract,
one field stands in for the location/folio data the viewer consumes. -/
structure ResultRecord where
  location : String
deriving DecidableEq, Repr

/-- State of the search result collection as far as `search` observes it.
Modelled from the spec: the collection holds the ordered result sequence and
the `numFound` metadata, plus whether a fetch is pending; `reset()` clears
results and metadata to empty/zero, `invalidateFetch()` voids any in-flight
fetch, and `fetch(...)` issues a new lookup. -/
structure CollectionState where
  results : List ResultRecord
  numFound : Nat
  fetchPending : Bool
deriving DecidableEq, Repr

/-- Modelled from the spec: how one collection operation performed by
`search` transforms the collection state. -/
def applySearchEffect (c : CollectionState) : SearchEffect → CollectionState
  | SearchEffect.invalidateFetch => { c with fetchPending := false }
  | SearchEffect.reset => { c with results := [], numFound := 0 }
  | SearchEffect.fetch _ => { c with fetchPending := true }

/-- Runs a sequence of `search` effects against a collection state. -/
def runSearchEffects (c : CollectionState) (effects : List SearchEffect) : CollectionState :=
  effects.foldl applySearchEffect c

/-- State of the result store across asynchronous fetches. Modelled from the
spec: the store keeps an invalidation token that is advanced every time a
fetch is issued; a completion is applied only when its token still matches,
so a superseded fetch's late completion is ignored. -/
structure StoreState where
  results : List ResultRecord
  numFound : Nat
  fetchToken : Nat
deriving DecidableEq, Repr

/-- Modelled from the spec: issuing a fetch advances the invalidation token
and hands the new token to the request, to be checked at completion time. -/
def issueFetch (s : StoreState) : StoreState × Nat :=
  ({ s with fetchToken := s.fetchToken + 1 }, s.fetchToken + 1)

/-- Modelled from the spec: a fetch completion replaces the stored results
and metadata only when its token still matches the store's current token;
otherwise the completion is ignored. -/
def completeFetch (s : StoreState) (token : Nat) (results : List ResultRecord)
    (numFound : Nat) : StoreState :=
  if token = s.fetchToken then { s with results := results, numFound := numFound } else s

/-- The pagination cursor built by `resultFetchCallback`: the source
constructs a PaginationView with a current page, an element count and a page
size. -/
structure PaginationState where
  currentPage : Nat
  elementCount : Nat
  pageSize : Nat
deriving DecidableEq, Repr

/-- Modelled from the spec: the pagination view's getPage returns the
1-based current page/index. -/
def PaginationState.getPage (p : PaginationState) : Nat :=
  p.currentPage

/-- An operation performed on the facsimile viewer by the notation search
view: painting the highlight boxes, or zooming to a result record (the
target is `none` when the source indexes past the end of the result array,
yielding `undefined`). -/
inductive ViewerEffect
  | paintBoxes : List ResultRecord → ViewerEffect
  | zoomToLocation : Option ResultRecord → ViewerEffect
deriving DecidableEq, Repr

/-- Embedding of `resultFetchCallback` together with the `zoomToResult` call
it makes: paints the fetched results as highlight boxes, constructs a fresh
pagination cursor with current page 1, element count `numFound` and page
size 1, and zooms to the result at index `getPage() - 1`. Returns the new
cursor and the viewer effects in order. -/
def resultFetchCallback (results : List ResultRecord) (numFound : Nat) :
    PaginationState × List ViewerEffect :=
  let paginator : PaginationState := ⟨1, numFound, 1⟩
  (paginator,
    [ViewerEffect.paintBoxes results,
     ViewerEffect.zoomToLocation (results.get? (paginator.getPage - 1))])

/-- A JavaScript error value: the loader tags its error with a `name`. -/
structure JsError where
  name : String
  message : String
deriving DecidableEq, Repr

/-- Embedding of `templateId.replace(/^#/, '')`: removes one leading hash. -/
def stripHash (s : String) : String :=
  match s.data with
  | '#' :: rest => String.mk rest
  | _ => s

/-- The template-store key computed by `loadTemplate` for an identifier. -/
def templateKey (templateId : String) : String :=
  stripHash templateId ++ ".html"

/-- Embedding of the Marionette `loadTemplate` override: looks the computed
file name up in the bundled template store (an association list standing for
the `templates` module object) and either returns the stored compiled
template unchanged or throws an error named NoTemplateError. -/
def loadTemplate (templates : List (String × String)) (templateId : String) :
    Except JsError String :=
  let templateFile := templateKey templateId
  match templates.lookup templateFile with
  | none =>
      Except.error
        ⟨"NoTemplateError",
         "Could not find template: \"" ++ templateId ++ "\" (" ++ templateFile ++ ")"⟩
  | some t => Except.ok t

/-- A compiled template as produced by `getTemplateSource`: the file name and
the compiled template function's source text. -/
structure TemplateSource where
  file : String
  template : String
deriving DecidableEq, Repr

/-- Embedding of the bundler's escape of one file-name character,
`replace(/[\"\\]/g, '\\$&')`: a double quote or backslash is prefixed with a
backslash, every other character is kept. -/
def escapeKeyChar (c : Char) : List Char :=
  if c = '"' ∨ c = '\\' then ['\\', c] else [c]

/-- Escapes a file name for embedding as an object-key string literal. -/
def escapeKey (s : String) : String :=
  ⟨s.data.flatMap escapeKeyChar⟩

/-- Reads the body of a double-quoted string literal: a backslash escapes
the following character, a bare double quote or a trailing backslash is
rejected. Inverse direction of `escapeKey`, used to state that the escaped
file name is a well-formed object-key literal body. -/
def unescapeChars : List Char → Option (List Char)
  | [] => some []
  | ['\\'] => none
  | '\\' :: d :: rest2 => (unescapeChars rest2).map (d :: ·)
  | c :: rest => if c = '"' then none else (unescapeChars rest).map (c :: ·)

/-- The object entry written for one template: quoted escaped file name,
colon, template source. -/
def entryText (t : TemplateSource) : String :=
  "\"" ++ escapeKey t.file ++ "\":" ++ t.template

/-- Embedding of the `templates.forEach` loop of `writeBundle`: each entry is
followed by `,\n`, except the last (`index === len - 1`), followed by
`\n`. -/
def writeBundleEntries : List TemplateSource → String
  | [] => ""
  | t :: ts =>
      entryText t ++ (if ts.isEmpty then "\n" else ",\n") ++ writeBundleEntries ts

/-- Embedding of `writeBundle`: concatenation of everything written to the
stream. The preface is written only when the option is present and truthy
(a provided empty string is falsy in JavaScript and is skipped). -/
def writeBundle (templates : List TemplateSource) (preface : Option String) : String :=
  (match preface with
   | some p => if p = "" then "" else p
   | none => "") ++
  "module.exports=\x7b\n" ++ writeBundleEntries templates ++ "\x7d;\n"

/-- Claim C1: `getSearchField f` returns `f ++ "_t_hidden"` exactly when `f`
is one of the eight string-indexed fields (feast, office, genre, position,
mode, differentia, finalis, folio), and returns `f` unchanged for every
other field name. -/
theorem getSearchField_string_indexed (f : String) :
    ((f = "feast" ∨ f = "office" ∨ f = "genre" ∨ f = "position" ∨ f = "mode" ∨
        f = "differentia" ∨ f = "finalis" ∨ f = "folio") →
      getSearchField f = f ++ "_t_hidden") ∧
    (¬(f = "feast" ∨ f = "office" ∨ f = "genre" ∨ f = "position" ∨ f = "mode" ∨
        f = "differentia" ∨ f = "finalis" ∨ f = "folio") →
      getSearchField f = f) := by
  constructor
  · intro h
    have hmem : f ∈ stringFields := by
      simp only [stringFields, List.mem_cons, List.not_mem_nil, or_false]
      exact h
    simp [getSearchField, hmem]
  · intro h
    have hmem : f ∉ stringFields := by
      simp only [stringFields, List.mem_cons, List.not_mem_nil, or_false]
      exact h
    simp [getSearchField, hmem]

/-- Witness for C1 at the concrete fields `feast` and `volpiano`. -/
theorem getSearchField_string_indexed_witness :
    getSearchField "feast" = "feast_t_hidden" ∧ getSearchField "volpiano" = "volpiano" :=
  ⟨(getSearchField_string_indexed "feast").1 (by decide),
   (getSearchField_string_indexed "volpiano").2 (by decide)⟩

/-- Claim C2: a mode-field query given as a non-empty array whose values are
all single-character produces exactly one constraint, on the exact `mode`
field; one whose values are all multi-character produces exactly one
constraint, on `mode_t_hidden`. -/
theorem mode_uniform_values_single_field (vs : List String) (hne : vs ≠ []) :
    ((∀ v ∈ vs, v.length = 1) →
      setSearchQueryOnBuilder "mode" (QueryValue.arr vs) =
        [⟨"mode", QueryValue.arr vs, some "OR"⟩]) ∧
    ((∀ v ∈ vs, 2 ≤ v.length) →
      setSearchQueryOnBuilder "mode" (QueryValue.arr vs) =
        [⟨"mode_t_hidden", QueryValue.arr vs, some "OR"⟩]) := by
  constructor
  · intro h
    have hstr : modeStringValues vs = vs :=
      List.filter_eq_self.mpr (fun v hv => by simp [h v hv])
    have htxt : modeTextValues vs = [] := by
      simp only [modeTextValues, List.filter_eq_nil_iff]
      intro v hv
      simp [h v hv]
    have hlen : (modeStringValues vs).length ≠ 0 := by
      rw [hstr]
      exact fun hc => hne (List.length_eq_zero.mp hc)
    simp [setSearchQueryOnBuilder, hstr, htxt, hlen, hne]
  · intro h
    have hstr : modeStringValues vs = [] := by
      simp only [modeStringValues, List.filter_eq_nil_iff]
      intro v hv
      have hv2 := h v hv
      have hv1 : v.length ≠ 1 := by omega
      simp [hv1]
    have htxt : modeTextValues vs = vs :=
      List.filter_eq_self.mpr (fun v hv => by
        have hv2 := h v hv
        have hv1 : v.length ≠ 1 := by omega
        simpa using hv1)
    simp [setSearchQueryOnBuilder, hstr, htxt]

/-- Witness for C2 at the concrete value arrays `["1", "8"]` and
`["dorian", "lydian"]`. -/
theorem mode_uniform_values_single_field_witness :
    setSearchQueryOnBuilder "mode" (QueryValue.arr ["1", "8"]) =
      [⟨"mode", QueryValue.arr ["1", "8"], some "OR"⟩] ∧
    setSearchQueryOnBuilder "mode" (QueryValue.arr ["dorian", "lydian"]) =
      [⟨"mode_t_hidden", QueryValue.arr ["dorian", "lydian"], some "OR"⟩] :=
  ⟨(mode_uniform_values_single_field ["1", "8"] (by decide)).1 (by decide),
   (mode_uniform_values_single_field ["dorian", "lydian"] (by decide)).2 (by decide)⟩

/-- Claim C3: a mode-field query mixing single-character and multi-character
values (all values non-empty) produces exactly one raw combined clause
`(mode:(v1 OR ...) OR mode_t_hidden:(w1 OR ...))` on the special field
`_hardcodedSpecialQuery`, and no constraint on `mode` or `mode_t_hidden`
themselves. -/
theorem mode_mixed_values_combined_clause (vs : List String)
    (hpos : ∀ v ∈ vs, 1 ≤ v.length)
    (h1 : ∃ v ∈ vs, v.length = 1) (h2 : ∃ v ∈ vs, 2 ≤ v.length) :
    setSearchQueryOnBuilder "mode" (QueryValue.arr vs) =
      [⟨"_hardcodedSpecialQuery",
        QueryValue.str ("(mode:(" ++
          String.intercalate " OR " (vs.filter (fun v => v.length = 1)) ++
          ") OR mode_t_hidden:(" ++
          String.intercalate " OR " (vs.filter (fun v => 2 ≤ v.length)) ++ "))"),
        none⟩] ∧
    ∀ c ∈ setSearchQueryOnBuilder "mode" (QueryValue.arr vs),
      c.field ≠ "mode" ∧ c.field ≠ "mode_t_hidden" := by
  have htxt : modeTextValues vs = vs.filter (fun v => 2 ≤ v.length) := by
    unfold modeTextValues
    apply List.filter_congr
    intro v hv
    have hp := hpos v hv
    rcases Nat.lt_or_ge v.length 2 with hlt | hge
    · have hv1 : v.length = 1 := by omega
      simp [hv1]
    · have hv1 : v.length ≠ 1 := by omega
      simp [hv1, hge]
  have hstr_ne : ¬(modeStringValues vs).length = 0 := by
    obtain ⟨v, hv, hv1⟩ := h1
    intro hc
    have hnil : modeStringValues vs = [] := List.length_eq_zero.mp hc
    have hmem : v ∈ modeStringValues vs := by
      simp only [modeStringValues, List.mem_filter, decide_eq_true_eq]
      exact ⟨hv, hv1⟩
    rw [hnil] at hmem
    exact List.not_mem_nil v hmem
  have htxt_ne : ¬(modeTextValues vs).length = 0 := by
    obtain ⟨v, hv, hv2⟩ := h2
    intro hc
    have hnil : modeTextValues vs = [] := List.length_eq_zero.mp hc
    have hmem : v ∈ modeTextValues vs := by
      rw [htxt]
      simp only [List.mem_filter, decide_eq_true_eq]
      exact ⟨hv, hv2⟩
    rw [hnil] at hmem
    exact List.not_mem_nil v hmem
  have hstr : modeStringValues vs = vs.filter (fun v => v.length = 1) := rfl
  have heq : setSearchQueryOnBuilder "mode" (QueryValue.arr vs) =
      [⟨"_hardcodedSpecialQuery",
        QueryValue.str ("(mode:(" ++
          String.intercalate " OR " (vs.filter (fun v => v.length = 1)) ++
          ") OR mode_t_hidden:(" ++
          String.intercalate " OR " (vs.filter (fun v => 2 ≤ v.length)) ++ "))"),
        none⟩] := by
    rw [← htxt, ← hstr]
    simp [setSearchQueryOnBuilder, hstr_ne, htxt_ne]
  refine ⟨heq, ?_⟩
  intro c hc
  rw [heq] at hc
  simp only [List.mem_cons, List.not_mem_nil, or_false] at hc
  subst hc
  exact ⟨(by decide : ("_hardcodedSpecialQuery" : String) ≠ "mode"),
    (by decide : ("_hardcodedSpecialQuery" : String) ≠ "mode_t_hidden")⟩

/-- Witness for C3 at the concrete mixed value array `["1", "22"]`. -/
theorem mode_mixed_values_combined_clause_witness :
    setSearchQueryOnBuilder "mode" (QueryValue.arr ["1", "22"]) =
      [⟨"_hardcodedSpecialQuery",
        QueryValue.str "(mode:(1) OR mode_t_hidden:(22))", none⟩] := by
  have h := mode_mixed_values_combined_clause ["1", "22"] (by decide)
    ⟨"1", by decide⟩ ⟨"22", by decide⟩
  exact h.1.trans (by decide)

/-- Claim C4: when the current query is falsy, `search` invalidates any
in-flight fetch, resets the collection to the empty sequence with
`numFound = 0`, and issues no fetch. -/
theorem empty_query_resets_without_fetch (q : Option QueryValue) (field : String)
    (rs : List (String × String)) (c : CollectionState) (hq : queryTruthy q = false) :
    (∀ b, SearchEffect.fetch b ∉ search q field rs) ∧
    SearchEffect.invalidateFetch ∈ search q field rs ∧
    (runSearchEffects c (search q field rs)).results = [] ∧
    (runSearchEffects c (search q field rs)).numFound = 0 ∧
    (runSearchEffects c (search q field rs)).fetchPending = false := by
  have hsearch : search q field rs = [SearchEffect.invalidateFetch, SearchEffect.reset] := by
    cases q with
    | none => rfl
    | some v =>
        cases v with
        | str s =>
            have hf : queryFalsy (QueryValue.str s) = true := by
              simpa [queryTruthy] using hq
            simp [search, hf]
        | arr l => simp [queryTruthy, queryFalsy] at hq
  rw [hsearch]
  refine ⟨?_, ?_, ?_, ?_, ?_⟩ <;> simp [runSearchEffects, applySearchEffect]

/-- Witness for C4 at the empty-string query against a non-empty, pending
collection state. -/
theorem empty_query_resets_without_fetch_witness :
    (∀ b, SearchEffect.fetch b ∉
      search (some (QueryValue.str "")) "all" [("feast", "Easter")]) ∧
    (runSearchEffects ⟨[⟨"f47"⟩], 5, true⟩
      (search (some (QueryValue.str "")) "all" [("feast", "Easter")])).results = [] ∧
    (runSearchEffects ⟨[⟨"f47"⟩], 5, true⟩
      (search (some (QueryValue.str "")) "all" [("feast", "Easter")])).numFound = 0 ∧
    (runSearchEffects ⟨[⟨"f47"⟩], 5, true⟩
      (search (some (QueryValue.str "")) "all" [("feast", "Easter")])).fetchPending = false := by
  have h := empty_query_resets_without_fetch (some (QueryValue.str "")) "all"
    [("feast", "Easter")] ⟨[⟨"f47"⟩], 5, true⟩ (by decide)
  exact ⟨h.1, h.2.2.1, h.2.2.2.1, h.2.2.2.2⟩

/-- Claim C5: when two fetches are issued in sequence, the completion of the
first (superseded) fetch never overwrites the stored results: whichever
order the completions arrive in, the final state carries the payload of the
last-issued fetch. -/
theorem superseded_fetch_never_overwrites (s0 : StoreState)
    (r1 r2 : List ResultRecord) (n1 n2 : Nat) :
    ((completeFetch (completeFetch (issueFetch (issueFetch s0).1).1
        (issueFetch s0).2 r1 n1) (issueFetch (issueFetch s0).1).2 r2 n2).results = r2 ∧
      (completeFetch (completeFetch (issueFetch (issueFetch s0).1).1
        (issueFetch s0).2 r1 n1) (issueFetch (issueFetch s0).1).2 r2 n2).numFound = n2) ∧
    ((completeFetch (completeFetch (issueFetch (issueFetch s0).1).1
        (issueFetch (issueFetch s0).1).2 r2 n2) (issueFetch s0).2 r1 n1).results = r2 ∧
      (completeFetch (completeFetch (issueFetch (issueFetch s0).1).1
        (issueFetch (issueFetch s0).1).2 r2 n2) (issueFetch s0).2 r1 n1).numFound = n2) := by
  have hne : s0.fetchToken + 1 ≠ s0.fetchToken + 1 + 1 := by omega
  refine ⟨⟨?_, ?_⟩, ⟨?_, ?_⟩⟩ <;> simp [issueFetch, completeFetch, hne]

/-- Claim C6: every result synchronization paints the fetched results as the
new highlight set and builds a fresh pagination cursor with page size 1,
element count `numFound` and initial page 1, then zooms the viewer to the
index-0 result; on an empty result set the cursor has element count 0 and
the painted highlight set is empty. -/
theorem result_sync_pagination_and_zoom (results : List ResultRecord) (numFound : Nat) :
    (resultFetchCallback results numFound).1.pageSize = 1 ∧
    (resultFetchCallback results numFound).1.elementCount = numFound ∧
    (resultFetchCallback results numFound).1.getPage = 1 ∧
    ViewerEffect.paintBoxes results ∈ (resultFetchCallback results numFound).2 ∧
    (∀ r, results.get? 0 = some r →
      ViewerEffect.zoomToLocation (some r) ∈ (resultFetchCallback results numFound).2) ∧
    (results = [] → numFound = 0 →
      (resultFetchCallback results numFound).1.elementCount = 0 ∧
      ViewerEffect.paintBoxes [] ∈ (resultFetchCallback results numFound).2) := by
  refine ⟨rfl, rfl, rfl, ?_, ?_, ?_⟩
  · simp [resultFetchCallback]
  · intro r hr
    rw [List.get?_eq_getElem?] at hr
    simp [resultFetchCallback, PaginationState.getPage, hr]
  · intro h0 hn
    subst h0
    subst hn
    exact ⟨rfl, by simp [resultFetchCallback]⟩

/-- Witness for C6 at a concrete two-element result set and at the empty
result set. -/
theorem result_sync_pagination_and_zoom_witness :
    (resultFetchCallback [⟨"12r"⟩, ⟨"34v"⟩] 2).1.pageSize = 1 ∧
    (resultFetchCallback [⟨"12r"⟩, ⟨"34v"⟩] 2).1.getPage = 1 ∧
    ViewerEffect.zoomToLocation (some ⟨"12r"⟩) ∈ (resultFetchCallback [⟨"12r"⟩, ⟨"34v"⟩] 2).2 ∧
    (resultFetchCallback [] 0).1.elementCount = 0 ∧
    ViewerEffect.paintBoxes [] ∈ (resultFetchCallback [] 0).2 := by
  have h1 := result_sync_pagination_and_zoom [⟨"12r"⟩, ⟨"34v"⟩] 2
  have h2 := result_sync_pagination_and_zoom ([] : List ResultRecord) 0
  exact ⟨h1.1, h1.2.2.1, h1.2.2.2.2.1 ⟨"12r"⟩ rfl,
    (h2.2.2.2.2.2 rfl rfl).1, (h2.2.2.2.2.2 rfl rfl).2⟩

/-- Claim C7 is false on the code: the comma split in `search` is applied to
every field other than `all`, not only to the mode field. Counterexample: a
string query against the `feast` field is comma-split before reaching the
query builder. -/
theorem comma_split_not_mode_only_counterexample :
    search (some (QueryValue.str "a,b")) "feast" [] =
      [SearchEffect.fetch [⟨"feast_t_hidden", QueryValue.arr ["a", "b"], some "OR"⟩]] ∧
    QueryValue.arr ["a", "b"] ≠ QueryValue.str "a,b" := by
  exact ⟨by decide, by decide⟩

/-- Claim C7 amended: in `search`, a string-valued query is split on commas
whenever the field is not `all` (for the mode field as well as for every
other non-`all` field); only queries against the `all` field reach the query
builder unsplit. -/
theorem comma_split_amended (s : String) (field : String) (rs : List (String × String))
    (hs : s ≠ "") :
    (field ≠ "all" → field ≠ "mode" →
      search (some (QueryValue.str s)) field rs =
        [SearchEffect.fetch
          (⟨getSearchField field, QueryValue.arr (splitComma s), some "OR"⟩ ::
            rs.map restrictionCall)]) ∧
    (field = "mode" →
      search (some (QueryValue.str s)) field rs =
        [SearchEffect.fetch
          (setSearchQueryOnBuilder "mode" (QueryValue.arr (splitComma s)) ++
            rs.map restrictionCall)]) ∧
    (field = "all" →
      search (some (QueryValue.str s)) field rs =
        [SearchEffect.fetch
          (⟨getSearchField "all", QueryValue.str s, some "OR"⟩ ::
            rs.map restrictionCall)]) := by
  have hfalsy : queryFalsy (QueryValue.str s) = false := by simp [queryFalsy, hs]
  refine ⟨?_, ?_, ?_⟩
  · intro hall hmode
    simp [search, hfalsy, commaSplit, hall, setSearchQueryOnBuilder, hmode]
  · intro hmode
    subst hmode
    simp [search, hfalsy, commaSplit]
  · intro hall
    subst hall
    simp [search, hfalsy, commaSplit, setSearchQueryOnBuilder]

/-- Witness for the amended C7 at a `volpiano` (split) string query, a
`mode` (split, driving the combined-clause logic) string query, and an `all`
(unsplit) string query. -/
theorem comma_split_amended_witness :
    search (some (QueryValue.str "a,b")) "volpiano" [] =
      [SearchEffect.fetch [⟨"volpiano", QueryValue.arr ["a", "b"], some "OR"⟩]] ∧
    search (some (QueryValue.str "1,22")) "mode" [] =
      [SearchEffect.fetch
        [⟨"_hardcodedSpecialQuery",
          QueryValue.str "(mode:(1) OR mode_t_hidden:(22))", none⟩]] ∧
    search (some (QueryValue.str "a,b")) "all" [] =
      [SearchEffect.fetch [⟨"all", QueryValue.str "a,b", some "OR"⟩]] := by
  have h1 := comma_split_amended "a,b" "volpiano" [] (by decide)
  have h2 := comma_split_amended "1,22" "mode" [] (by decide)
  have h3 := comma_split_amended "a,b" "all" [] (by decide)
  exact ⟨(h1.1 (by decide) (by decide)).trans (by decide),
    (h2.2.1 rfl).trans (by decide), (h3.2.2 rfl).trans (by decide)⟩

/-- Claim C8: requesting an identifier whose computed file name is not in
the bundled template store raises an error named NoTemplateError, and every
identifier that is present yields the stored compiled template unchanged. -/
theorem loadTemplate_named_error_or_stored (templates : List (String × String))
    (templateId : String) :
    (templates.lookup (templateKey templateId) = none →
      ∃ e, loadTemplate templates templateId = Except.error e ∧
        e.name = "NoTemplateError") ∧
    (∀ t, templates.lookup (templateKey templateId) = some t →
      loadTemplate templates templateId = Except.ok t) := by
  constructor
  · intro h
    refine ⟨⟨"NoTemplateError",
      "Could not find template: \"" ++ templateId ++ "\" (" ++ templateKey templateId ++ ")"⟩,
      ?_, rfl⟩
    simp [loadTemplate, h]
  · intro t h
    simp [loadTemplate, h]

/-- Witness for C8 at a one-template store: a present identifier round-trips
and a missing identifier raises NoTemplateError. -/
theorem loadTemplate_named_error_or_stored_witness :
    loadTemplate [("search.html", "TPL")] "#search" = Except.ok "TPL" ∧
    ∃ e, loadTemplate [("search.html", "TPL")] "#missing" = Except.error e ∧
      e.name = "NoTemplateError" := by
  have h1 := (loadTemplate_named_error_or_stored [("search.html", "TPL")] "#search").2
    "TPL" (by decide)
  have h2 := (loadTemplate_named_error_or_stored [("search.html", "TPL")] "#missing").1
    (by decide)
  exact ⟨h1, h2⟩

/-- Tail call of `String.intercalate` pulls a ready accumulator out front. -/
theorem intercalate_go_append (sep : String) (as : List String) (acc₁ acc₂ : String) :
    String.intercalate.go (acc₁ ++ acc₂) sep as = acc₁ ++ String.intercalate.go acc₂ sep as := by
  induction as generalizing acc₂ with
  | nil => rfl
  | cons a as ih =>
      show String.intercalate.go (acc₁ ++ acc₂ ++ sep ++ a) sep as =
        acc₁ ++ String.intercalate.go (acc₂ ++ sep ++ a) sep as
      rw [String.append_assoc acc₁ acc₂ sep, String.append_assoc acc₁ (acc₂ ++ sep) a]
      exact ih (acc₂ ++ sep ++ a)

/-- Unfolding lemma for `String.intercalate` on a list with at least two
elements. -/
theorem intercalate_cons_cons (sep a b : String) (l : List String) :
    String.intercalate sep (a :: b :: l) =
      a ++ sep ++ String.intercalate sep (b :: l) := by
  show String.intercalate.go (a ++ sep ++ b) sep l =
    a ++ sep ++ String.intercalate.go b sep l
  exact intercalate_go_append sep l (a ++ sep) b

/-- The entry loop of `writeBundle` writes the entries separated by `,\n`,
with a final newline. -/
theorem writeBundleEntries_intercalate (ts : List TemplateSource) (h : ts ≠ []) :
    writeBundleEntries ts = String.intercalate ",\n" (ts.map entryText) ++ "\n" := by
  induction ts with
  | nil => exact absurd rfl h
  | cons t ts ih =>
      cases ts with
      | nil =>
          show entryText t ++ "\n" ++ "" = String.intercalate ",\n" [entryText t] ++ "\n"
          rw [String.append_empty]
          rfl
      | cons t2 ts2 =>
          show entryText t ++ ",\n" ++ writeBundleEntries (t2 :: ts2) = _
          rw [ih (by simp)]
          simp only [List.map_cons]
          rw [intercalate_cons_cons]
          simp [String.append_assoc]

/-- Escaping a file name and reading it back as a string-literal body is the
identity: in particular every double quote and backslash in the name is
preceded by a backslash, since `unescapeChars` rejects bare quotes. -/
theorem unescapeChars_escapeKey (cs : List Char) :
    unescapeChars (cs.flatMap escapeKeyChar) = some cs := by
  induction cs with
  | nil => rfl
  | cons c cs ih =>
      show unescapeChars (escapeKeyChar c ++ cs.flatMap escapeKeyChar) = some (c :: cs)
      by_cases hc : c = '"' ∨ c = '\\'
      · simp [escapeKeyChar, hc, unescapeChars, ih]
      · push_neg at hc
        have h1 : escapeKeyChar c = [c] := by simp [escapeKeyChar, hc.1, hc.2]
        rw [h1, List.singleton_append]
        simp [unescapeChars, hc.1, hc.2, ih]

/-- Claim C9: `writeBundle` emits the preface (when provided and non-empty)
followed by one CommonJS module whose body lists one quoted-filename entry
per template, in input order, separated by commas; and the filename escaping
is invertible, every quote and backslash being backslash-escaped so the
escaped name is a well-formed object-key literal body. -/
theorem writeBundle_module_shape (ts : List TemplateSource) (p : String) (h : ts ≠ []) :
    (p ≠ "" → writeBundle ts (some p) =
      p ++ "module.exports=\x7b\n" ++
        String.intercalate ",\n"
          (ts.map (fun t => "\"" ++ escapeKey t.file ++ "\":" ++ t.template)) ++
        "\n\x7d;\n") ∧
    (writeBundle ts none =
      "module.exports=\x7b\n" ++
        String.intercalate ",\n"
          (ts.map (fun t => "\"" ++ escapeKey t.file ++ "\":" ++ t.template)) ++
        "\n\x7d;\n") ∧
    (∀ s, unescapeChars (escapeKey s).data = some s.data) := by
  have hmap : ts.map (fun t => "\"" ++ escapeKey t.file ++ "\":" ++ t.template) =
      ts.map entryText := by
    simp [entryText]
  have hentries := writeBundleEntries_intercalate ts h
  refine ⟨?_, ?_, ?_⟩
  · intro hp
    rw [hmap]
    simp only [writeBundle, hp, if_neg hp, hentries]
    simp [String.append_assoc]
  · rw [hmap]
    simp only [writeBundle, hentries]
    simp [String.append_assoc]
  · intro s
    exact unescapeChars_escapeKey s.data

/-- Witness for C9 at a two-template bundle whose first file name contains a
double quote, with a preface. -/
theorem writeBundle_module_shape_witness :
    writeBundle [⟨"a\"b.html", "T1"⟩, ⟨"c.html", "T2"⟩] (some "P;") =
      "P;module.exports=\x7b\n\"a\\\"b.html\":T1,\n\"c.html\":T2\n\x7d;\n" ∧
    unescapeChars (escapeKey "a\"b.html").data = some ("a\"b.html".data) := by
  have h := writeBundle_module_shape [⟨"a\"b.html", "T1"⟩, ⟨"c.html", "T2"⟩] "P;" (by decide)
  exact ⟨(h.1 (by decide)).trans (by decide), h.2.2 "a\"b.html"⟩

/-- Claim C10: every restriction applied during `search` has its field name
passed through `getSearchField` before being set on the builder, so a
restriction on a string-indexed field constrains the `_t_hidden` variant. -/
theorem restriction_fields_mapped (q : Option QueryValue) (field f v : String)
    (rs : List (String × String)) (hq : queryTruthy q = true) (hmem : (f, v) ∈ rs) :
    ∃ b, search q field rs = [SearchEffect.fetch b] ∧
      (⟨getSearchField f, QueryValue.str v, none⟩ : FieldCall) ∈ b ∧
      (f ∈ stringFields → getSearchField f = f ++ "_t_hidden") := by
  cases q with
  | none => simp [queryTruthy] at hq
  | some qq =>
      have hfalsy : queryFalsy qq = false := by simpa [queryTruthy] using hq
      refine ⟨setSearchQueryOnBuilder field (commaSplit field qq) ++ rs.map restrictionCall,
        ?_, ?_, ?_⟩
      · simp [search, hfalsy]
      · exact List.mem_append_right _ (List.mem_map_of_mem restrictionCall hmem)
      · intro hf
        simp [getSearchField, hf]

/-- Witness for C10: a `feast` restriction lands on `feast_t_hidden` in the
fetched builder state. -/
theorem restriction_fields_mapped_witness :
    ∃ b, search (some (QueryValue.str "sanctus")) "all" [("feast", "Easter")] =
        [SearchEffect.fetch b] ∧
      (⟨"feast_t_hidden", QueryValue.str "Easter", none⟩ : FieldCall) ∈ b := by
  obtain ⟨b, hb, hmem, hmap⟩ := restriction_fields_mapped
    (some (QueryValue.str "sanctus")) "all" "feast" "Easter" [("feast", "Easter")]
    (by decide) (by decide)
  exact ⟨b, hb, hmem⟩

end Cantus
